import Mathlib

/-
Verification development for the eBay listing scraper.

Shallow embedding of the core scrape-match-classify-schedule logic:

  * src/modules/utils.py       : matches_pattern, is_globally_blocked,
                                 matches_blocklist_override, is_seller_blocked,
                                 evaluate_deal
  * src/modules/modes.py       : the scheduler loop (match), match_single_cycle,
                                 _get_item_price, matches_ping_criteria
  * src/modules/seen_items.py  : SeenItemsDB (is_seen, mark_seen, cleanup_old_items)
  * src/modules/ebay_api.py    : EbayItem field normalization (price)
  * src/modules/config_tools.py: Keyword, PingConfig, Config (the fields the
                                 matching logic reads)
  * src/modules/enums.py       : Deal tiers, BuyingOption, Match

Python strings are modelled as List Char (lower-casing ASCII-style via
Char.toLower), prices (Python floats) as rationals, and the regex engine
(Python re) as an abstract oracle of type List Char -> List Char -> Option Bool
where none models a compile failure (re.error) and some b a successful search
returning b.  Fallible storage (sqlite) is modelled functionally on the
non-failing path.
-/

namespace EbayScraper

/-! String helpers modelling Python str operations on List Char. -/

/-- Python str.lower, ASCII-style. -/
def lowerL (s : List Char) : List Char := s.map Char.toLower

/-- Python str.startswith: the first argument is the candidate leading segment. -/
def startsWithL : List Char → List Char → Bool
  | [], _ => true
  | _ :: _, [] => false
  | a :: as, b :: bs => a == b && startsWithL as bs

/-- Python substring containment: needle occurs contiguously inside haystack.
Mirrors the semantics of the Python expression needle in haystack. -/
def containsSubstring (needle haystack : List Char) : Bool :=
  match haystack with
  | [] => startsWithL needle []
  | _ :: t => startsWithL needle haystack || containsSubstring needle t

/-- Python str.strip: drop leading and trailing whitespace. -/
def stripL (s : List Char) : List Char :=
  ((s.dropWhile Char.isWhitespace).reverse.dropWhile Char.isWhitespace).reverse

/-- The fixed sentinel marking a regex pattern (default argument of
matches_pattern in src/modules/utils.py). -/
def sentinel : List Char := "regexp::".toList

/-- The abstract regex engine: search lowered-text with a pattern,
case-insensitively.  none models re.error (the pattern fails to compile),
some b a successful search with boolean outcome b. -/
def RegexOracle : Type := List Char → List Char → Option Bool

/-- matches_pattern from src/modules/utils.py lines 18-29.
Lowers the text; if the pattern carries the sentinel, runs the regex engine on
the remainder and falls back to a literal lowered-substring test when the
engine reports a compile failure; otherwise a literal lowered-substring test. -/
def matches_pattern (eng : RegexOracle) (text pat : List Char) : Bool :=
  let text_lower := lowerL text
  if startsWithL sentinel pat then
    let regex_pattern := pat.drop sentinel.length
    match eng regex_pattern text_lower with
    | some b => b
    | none => containsSubstring (lowerL regex_pattern) text_lower
  else
    containsSubstring (lowerL pat) text_lower

/-! Deal classification (src/modules/enums.py, src/modules/utils.py). -/

/-- The five deal tiers (the DealTuple constants of class Deal in
src/modules/enums.py, identified by tier). -/
inductive Deal where
  | FIRE_DEAL
  | GREAT_DEAL
  | GOOD_DEAL
  | OK_DEAL
  | UNKNOWN_DEAL
  deriving DecidableEq, Repr

/-- Modelled from the spec: PriceRange is absent from src/modules/enums.py in
this snapshot (src/modules/config_tools.py constructs it with fields start and
end); an inclusive price interval. -/
structure PriceRange where
  start : ℚ
  stop : ℚ
  deriving DecidableEq, Repr

/-- Modelled from the spec: DealRanges is absent from src/modules/enums.py in
this snapshot; four named price intervals (section 3 of the spec). -/
structure DealRanges where
  fire_deal : PriceRange
  great_deal : PriceRange
  good_deal : PriceRange
  ok_deal : PriceRange
  deriving DecidableEq, Repr

/-- Modelled from the spec: DealRanges.get_deal_type is absent from
src/modules/enums.py in this snapshot.  Per spec section 4.2: return whichever
of the four intervals contains the price, with precedence
fire > great > good > ok, and unknown when none contains it. -/
def DealRanges.get_deal_type (dr : DealRanges) (price : ℚ) : Deal :=
  if dr.fire_deal.start ≤ price ∧ price ≤ dr.fire_deal.stop then Deal.FIRE_DEAL
  else if dr.great_deal.start ≤ price ∧ price ≤ dr.great_deal.stop then Deal.GREAT_DEAL
  else if dr.good_deal.start ≤ price ∧ price ≤ dr.good_deal.stop then Deal.GOOD_DEAL
  else if dr.ok_deal.start ≤ price ∧ price ≤ dr.ok_deal.stop then Deal.OK_DEAL
  else Deal.UNKNOWN_DEAL

/-- evaluate_deal from src/modules/utils.py lines 168-210. -/
def evaluate_deal (price min_price max_price : Option ℚ)
    (deal_ranges : Option DealRanges) : Deal :=
  match price with
  | none => Deal.UNKNOWN_DEAL
  | some p =>
    match deal_ranges with
    | some dr => dr.get_deal_type p
    | none =>
      match min_price, max_price with
      | some mn, some mx =>
        if p < mn ∨ p > mx then Deal.UNKNOWN_DEAL
        else
          let range_span := mx - mn
          let quarter := range_span / 4
          if p ≤ mn + quarter then Deal.FIRE_DEAL
          else if p ≤ mn + 2 * quarter then Deal.GREAT_DEAL
          else if p ≤ mn + 3 * quarter then Deal.GOOD_DEAL
          else if p ≤ mn + 4 * quarter then Deal.OK_DEAL
          else Deal.UNKNOWN_DEAL
      | _, _ => Deal.UNKNOWN_DEAL

/-! Data model (src/modules/enums.py, src/modules/config_tools.py,
src/modules/ebay_api.py). -/

/-- BuyingOption from src/modules/enums.py. -/
inductive BuyingOption where
  | FIXED_PRICE
  | BEST_OFFER
  | AUCTION
  deriving DecidableEq, Repr

/-- Keyword from src/modules/config_tools.py: one match clause of a ping
config.  Absent optional fields are none; min, max and target prices are
numeric (config ints, compared against float prices). -/
structure Keyword where
  keyword : List Char
  min_price : Option ℚ := none
  max_price : Option ℚ := none
  target_price : Option ℚ := none
  friendly_name : Option (List Char) := none
  deal_ranges : Option DealRanges := none
  deriving DecidableEq, Repr

/-- PingConfig from src/modules/config_tools.py (one watch rule). -/
structure PingConfig where
  category_name : List Char
  categories : List Nat
  keywords : List Keyword
  channel_id : Nat := 0
  role : Nat := 0
  exclude_keywords : List (List Char) := []
  blocklist_override : List (List Char) := []
  deriving DecidableEq, Repr

/-- The fields of Config (src/modules/config_tools.py) that the matching
logic reads through global_vars.config. -/
structure GlobalConfig where
  include_shipping_in_deal_evaluation : Bool := false
  include_shipping_in_price_filters : Bool := false
  global_blocklist : List (List Char) := []
  seller_blocklist : List (List Char) := []
  condition_blocklist : List Nat := []
  deriving DecidableEq, Repr

/-- The normalized view over one raw marketplace record that
matches_ping_criteria and match_single_cycle read (the EbayItem properties of
src/modules/ebay_api.py).  full_item_id models the itemId string (the per-rule
de-duplication key), item_id the legacyItemId integer (the seen-ledger key).
price_value is the normalized price (Price.value); shipping lists the
cost.value of each shipping option in order. -/
structure EbayItem where
  full_item_id : List Char
  item_id : Nat
  title : List Char
  price_value : Option ℚ := none
  shipping : List (Option ℚ) := []
  condition_id : Option Nat := none
  seller_username : Option (List Char) := none
  buying_options : List BuyingOption := []
  deriving DecidableEq, Repr

/-- Price normalization from the EbayItem.price property
(src/modules/ebay_api.py lines 94-104): float(p) if p else None, so a raw
numeric price of 0 (falsy) normalizes to absent. -/
def normalize_price (raw : Option ℚ) : Option ℚ :=
  match raw with
  | none => none
  | some p => if p = 0 then none else some p

/-- Python truthiness of an optional number: None and 0 are falsy. -/
def truthyQ (v : Option ℚ) : Bool :=
  match v with
  | none => false
  | some x => x != 0

/-- Python truthiness of an optional integer: None and 0 are falsy. -/
def truthyN (v : Option Nat) : Bool :=
  match v with
  | none => false
  | some x => x != 0

/-- Match from src/modules/enums.py as constructed by matches_ping_criteria
in src/modules/modes.py. -/
structure Match where
  is_match : Bool
  min_price : Option ℚ
  max_price : Option ℚ
  target_price : Option ℚ
  friendly_name : Option (List Char)
  deal_ranges : Option DealRanges
  regex : Option (List Char)
  deriving DecidableEq, Repr

/-- The no-match Match value returned on every rejecting branch of
matches_ping_criteria. -/
def noMatch : Match :=
  { is_match := false, min_price := none, max_price := none,
    target_price := none, friendly_name := none, deal_ranges := none,
    regex := none }

/-! Blocklist helpers (src/modules/utils.py lines 32-73). -/

/-- is_globally_blocked from src/modules/utils.py lines 32-42. -/
def is_globally_blocked (cfg : GlobalConfig) (eng : RegexOracle)
    (content extra1 extra2 : List Char) : Bool :=
  if cfg.global_blocklist = [] then false
  else
    let content_to_check :=
      stripL (lowerL (content ++ [' '] ++ extra1 ++ [' '] ++ extra2))
    cfg.global_blocklist.any (fun p => matches_pattern eng content_to_check p)

/-- matches_blocklist_override from src/modules/utils.py lines 45-60. -/
def matches_blocklist_override (eng : RegexOracle)
    (content extra1 extra2 : List Char)
    (override_patterns : List (List Char)) : Bool :=
  if override_patterns = [] then false
  else
    let content_to_check :=
      stripL (lowerL (content ++ [' '] ++ extra1 ++ [' '] ++ extra2))
    override_patterns.any (fun p => matches_pattern eng content_to_check p)

/-- is_seller_blocked from src/modules/utils.py lines 63-73. -/
def is_seller_blocked (cfg : GlobalConfig) (eng : RegexOracle)
    (seller_username : Option (List Char)) : Bool :=
  match seller_username with
  | none => false
  | some u =>
    if cfg.seller_blocklist = [] then false
    else cfg.seller_blocklist.any (fun b => matches_pattern eng (lowerL u) b)

/-! Rule evaluation (src/modules/modes.py lines 175-307). -/

/-- _get_item_price from src/modules/modes.py lines 175-186: the listing
price (0.0 when absent), plus the first shipping option cost when
include_shipping is set and that cost is not None. -/
def get_item_price (item : EbayItem) (include_shipping : Bool) : ℚ :=
  let base_price :=
    match item.price_value with
    | none => 0
    | some v => v
  if !include_shipping then base_price
  else
    let shipping_cost :=
      match item.shipping with
      | [] => 0
      | c :: _ =>
        match c with
        | none => 0
        | some v => v
    base_price + shipping_cost

/-- The price-filter rejection test inside the keyword loop of
matches_ping_criteria (src/modules/modes.py lines 210-219): only applied when
the item price is truthy; a truthy min (resp. max) price rejects when the
effective price falls below (resp. above) it. -/
def priceRejects (cfg : GlobalConfig) (item : EbayItem) (kw : Keyword) : Bool :=
  truthyQ item.price_value &&
    (let price := get_item_price item cfg.include_shipping_in_price_filters
     (truthyQ kw.min_price && decide (price < kw.min_price.getD 0)) ||
     (truthyQ kw.max_price && decide (price > kw.max_price.getD 0)))

/-- The condition-blocklist rejection test inside the keyword loop of
matches_ping_criteria (src/modules/modes.py lines 221-226). -/
def conditionRejects (cfg : GlobalConfig) (item : EbayItem) : Bool :=
  truthyN item.condition_id &&
    decide (item.condition_id.getD 0 ∈ cfg.condition_blocklist)

/-- The keyword-scanning loop of matches_ping_criteria
(src/modules/modes.py lines 200-237): the first keyword whose pattern matches
the lowered title and that is rejected neither by the price filter nor by the
condition blocklist wins; rejected keywords are skipped and scanning
continues. -/
def findKeywordMatch (cfg : GlobalConfig) (eng : RegexOracle) (item : EbayItem)
    (title_lower : List Char) : List Keyword → Option Keyword
  | [] => none
  | kw :: rest =>
    if matches_pattern eng title_lower kw.keyword then
      if priceRejects cfg item kw then
        findKeywordMatch cfg eng item title_lower rest
      else if conditionRejects cfg item then
        findKeywordMatch cfg eng item title_lower rest
      else some kw
    else findKeywordMatch cfg eng item title_lower rest

/-- The acceptance predicate realized by the keyword loop: the pattern matches
the lowered title and neither the price filter nor the condition blocklist
rejects. -/
def keywordAccepts (cfg : GlobalConfig) (eng : RegexOracle) (item : EbayItem)
    (title_lower : List Char) (kw : Keyword) : Bool :=
  matches_pattern eng title_lower kw.keyword &&
    !priceRejects cfg item kw && !conditionRejects cfg item

/-- matches_ping_criteria from src/modules/modes.py lines 189-307. -/
def matches_ping_criteria (cfg : GlobalConfig) (eng : RegexOracle)
    (item : EbayItem) (ping : PingConfig) : Match :=
  let title_lower := lowerL item.title
  match findKeywordMatch cfg eng item title_lower ping.keywords with
  | none => noMatch
  | some kw =>
    if ping.exclude_keywords.any (fun ek => matches_pattern eng title_lower ek) then
      noMatch
    else if is_globally_blocked cfg eng title_lower [] [] &&
        !matches_blocklist_override eng title_lower [] [] ping.blocklist_override then
      noMatch
    else if is_seller_blocked cfg eng item.seller_username then
      noMatch
    else if !(item.buying_options.contains BuyingOption.FIXED_PRICE) then
      noMatch
    else
      { is_match := true, min_price := kw.min_price, max_price := kw.max_price,
        target_price := kw.target_price, friendly_name := kw.friendly_name,
        deal_ranges := kw.deal_ranges, regex := some kw.keyword }

/-! Seen-item ledger (src/modules/seen_items.py), modelled on the
non-failing storage path.  The sqlite table seen_items has item_id as PRIMARY
KEY; INSERT OR REPLACE removes any conflicting row and inserts the new one. -/

/-- One row of the seen_items table. -/
structure SeenRecord where
  item_id : Nat
  timestamp : Nat
  category_name : Option (List Char)
  title : List Char
  mode : List Char
  deriving DecidableEq, Repr

/-- SeenItemsDB.is_seen (src/modules/seen_items.py lines 34-41): row
existence for the item id. -/
def is_seen (db : List SeenRecord) (item_id : Nat) : Bool :=
  db.any (fun r => r.item_id == item_id)

/-- SeenItemsDB.mark_seen (src/modules/seen_items.py lines 43-61):
INSERT OR REPLACE keyed on item_id, with the current time. -/
def mark_seen (db : List SeenRecord) (item_id : Nat) (now : Nat)
    (category_name : Option (List Char)) (title : List Char)
    (mode : List Char) : List SeenRecord :=
  db.filter (fun r => r.item_id != item_id) ++
    [{ item_id := item_id, timestamp := now, category_name := category_name,
       title := title, mode := mode }]

/-- SeenItemsDB.cleanup_old_items (src/modules/seen_items.py lines 63-74):
delete rows with timestamp < now - days_old * 24 * 60 * 60, returning the
surviving table and the deleted count. -/
def cleanup_old_items (db : List SeenRecord) (now : Nat) (days_old : Nat) :
    List SeenRecord × Nat :=
  let cutoff_time := now - days_old * 24 * 60 * 60
  let kept := db.filter (fun r => !(r.timestamp < cutoff_time))
  (kept, db.length - kept.length)

/-- One operation against the ledger, for lifetime statements. -/
inductive LedgerOp where
  | mark (item_id : Nat) (now : Nat) (category_name : Option (List Char))
      (title : List Char) (mode : List Char)
  | cleanup (now : Nat) (days_old : Nat)
  deriving DecidableEq, Repr

/-- Apply one ledger operation. -/
def applyOp (db : List SeenRecord) : LedgerOp → List SeenRecord
  | .mark item_id now cname title mode => mark_seen db item_id now cname title mode
  | .cleanup now days_old => (cleanup_old_items db now days_old).1

/-- Apply a sequence of ledger operations in order. -/
def applyOps (db : List SeenRecord) (ops : List LedgerOp) : List SeenRecord :=
  ops.foldl applyOp db

/-! Cycle runner (match_single_cycle, src/modules/modes.py lines 87-172). -/

/-- Insert a category id into the accumulated category list unless already
present (the effect of the Python set union in match_single_cycle lines
90-95, with some iteration order). -/
def insertUnique (acc : List Nat) (c : Nat) : List Nat :=
  if c ∈ acc then acc else acc ++ [c]

/-- all_categories of match_single_cycle: the distinct category ids
referenced by any ping config. -/
def dedupCategories (pings : List PingConfig) : List Nat :=
  pings.foldl (fun acc p => p.categories.foldl insertUnique acc) []

/-- category_cache of match_single_cycle lines 97-109: one fetch per distinct
category, keyed by category id. -/
def buildCache (fetch : Nat → List EbayItem) (cats : List Nat) :
    List (Nat × List EbayItem) :=
  cats.map (fun c => (c, fetch c))

/-- category_cache.get(category_id, []) (match_single_cycle line 122). -/
def cacheGet (cache : List (Nat × List EbayItem)) (c : Nat) : List EbayItem :=
  match cache.find? (fun p => p.1 == c) with
  | some p => p.2
  | none => []

/-- One step of building combined_items (match_single_cycle lines 126-131):
keep the item when its itemId is non-empty and not already present. -/
def insertItem (acc : List EbayItem) (it : EbayItem) : List EbayItem :=
  if it.full_item_id = [] then acc
  else if acc.any (fun a => a.full_item_id == it.full_item_id) then acc
  else acc ++ [it]

/-- combined_items / items_list of match_single_cycle lines 118-133: the
listings of the categories of a rule, de-duplicated by itemId in insertion
order. -/
def combineItems (cache : List (Nat × List EbayItem)) (cats : List Nat) :
    List EbayItem :=
  cats.foldl (fun acc c => (cacheGet cache c).foldl insertItem acc) []

/-- The observable cycle state: the seen ledger plus the log of notification
side effects (send_listing_notification calls), as the notified item ids in
order. -/
structure CycleState where
  seen : List SeenRecord
  notified : List Nat
  deriving DecidableEq, Repr

/-- Processing of one listing inside a rule (match_single_cycle lines
137-163): skip when already seen; otherwise evaluate the rule, notify on a
match, and mark seen either way. -/
def processItem (cfg : GlobalConfig) (eng : RegexOracle) (now : Nat)
    (ping : PingConfig) (st : CycleState) (item : EbayItem) : CycleState :=
  if is_seen st.seen item.item_id then st
  else
    let matched := matches_ping_criteria cfg eng item ping
    if matched.is_match then
      { seen := mark_seen st.seen item.item_id now (some ping.category_name)
          item.title [],
        notified := st.notified ++ [item.item_id] }
    else
      { seen := mark_seen st.seen item.item_id now (some ping.category_name)
          item.title [],
        notified := st.notified }

/-- Processing of one ping config (match_single_cycle lines 117-170). -/
def processPing (cfg : GlobalConfig) (eng : RegexOracle) (now : Nat)
    (cache : List (Nat × List EbayItem)) (st : CycleState)
    (ping : PingConfig) : CycleState :=
  (combineItems cache ping.categories).foldl (processItem cfg eng now ping) st

/-- match_single_cycle (src/modules/modes.py lines 87-172): build the
per-cycle category cache with one fetch per distinct category, then process
each ping config in order. -/
def runCycle (cfg : GlobalConfig) (eng : RegexOracle) (now : Nat)
    (fetch : Nat → List EbayItem) (pings : List PingConfig)
    (st : CycleState) : CycleState :=
  let cache := buildCache fetch (dedupCategories pings)
  pings.foldl (processPing cfg eng now cache) st

/-- A whole process lifetime: a sequence of cycles, each with its own clock
value and fetch results, over a fixed rule set. -/
def runLifetime (cfg : GlobalConfig) (eng : RegexOracle)
    (pings : List PingConfig) (cycles : List (Nat × (Nat → List EbayItem)))
    (st : CycleState) : CycleState :=
  cycles.foldl (fun s cy => runCycle cfg eng cy.1 cy.2 pings s) st

/-! Scheduler loop (match, src/modules/modes.py lines 30-84).  The body of
the try block (sleep-hours check, match_single_cycle, pause wait, interval
sleep) is abstracted to its outcome: normal completion, a KeyboardInterrupt,
or any other exception carrying its repr signature. -/

/-- The outcome of one iteration body of the scheduler loop. -/
inductive CycleOutcome where
  | ok
  | keyboard_interrupt
  | exc (signature : List Char)
  deriving DecidableEq, Repr

/-- The scheduler bookkeeping state: the module-level exception_count and
exceptions globals of src/modules/modes.py lines 26-27. -/
structure SchedState where
  exception_count : Nat
  exceptions : List (List Char)
  deriving DecidableEq, Repr

/-- The result of one loop iteration: either continue with the next iteration
after sleeping delaySeconds, or propagate out of the loop. -/
inductive StepResult where
  | next (s : SchedState) (delaySeconds : Nat)
  | propagate (s : SchedState)
  deriving DecidableEq, Repr

/-- One iteration of the match loop (src/modules/modes.py lines 33-84) given
the body outcome.  On normal completion the loop sleeps the poll interval and
continues; KeyboardInterrupt re-raises; any other exception increments
exception_count, records a new signature, sleeps 10 seconds and retries.
There is no reset and no escalation threshold in the code. -/
def schedStep (poll_interval_seconds : Nat) (s : SchedState)
    (o : CycleOutcome) : StepResult :=
  match o with
  | .ok => .next s poll_interval_seconds
  | .keyboard_interrupt => .propagate s
  | .exc sig =>
    let s1 : SchedState :=
      { s with exception_count := s.exception_count + 1 }
    let s2 : SchedState :=
      if sig ∈ s1.exceptions then s1
      else { s1 with exceptions := s1.exceptions ++ [sig] }
    .next s2 10

/-- Run the scheduler loop over a sequence of body outcomes, returning the
final bookkeeping state and whether the loop propagated an error upward. -/
def schedRun (poll_interval_seconds : Nat) (s : SchedState) :
    List CycleOutcome → SchedState × Bool
  | [] => (s, false)
  | o :: rest =>
    match schedStep poll_interval_seconds s o with
    | .next s1 _ => schedRun poll_interval_seconds s1 rest
    | .propagate s1 => (s1, true)

/-- Whether a body outcome is a counted exception. -/
def isExc : CycleOutcome → Bool
  | .exc _ => true
  | _ => false

/-- A KeywordRule with its price bounds removed (used to state that an
absent listing price disables the per-keyword price checks). -/
def stripKw (kw : Keyword) : Keyword :=
  { kw with min_price := none, max_price := none }

/-- A ping config whose KeywordRules all have their price bounds removed. -/
def stripPing (ping : PingConfig) : PingConfig :=
  { ping with keywords := ping.keywords.map stripKw }

/-! Theorems. -/

/-- Helper: schedRun over outcomes free of KeyboardInterrupt never
propagates, and accumulates one count per exception with no reset. -/
theorem schedRun_no_interrupt (p : Nat) (s : SchedState)
    (os : List CycleOutcome) (h : CycleOutcome.keyboard_interrupt ∉ os) :
    (schedRun p s os).2 = false ∧
      (schedRun p s os).1.exception_count =
        s.exception_count + os.countP (fun o => isExc o) := by
  induction os generalizing s with
  | nil => simp [schedRun]
  | cons o rest ih =>
    have hrest : CycleOutcome.keyboard_interrupt ∉ rest := by
      intro hh
      exact h (List.mem_cons_of_mem o hh)
    cases o with
    | ok =>
      have hstep : schedRun p s (CycleOutcome.ok :: rest) = schedRun p s rest := rfl
      have hc : (CycleOutcome.ok :: rest).countP (fun o => isExc o)
          = rest.countP (fun o => isExc o) := by
        simp [List.countP_cons, isExc]
      rw [hstep, hc]
      exact ih (s := s) hrest
    | keyboard_interrupt =>
      exact absurd (List.mem_cons_self _ _) h
    | exc sig =>
      have hc : (CycleOutcome.exc sig :: rest).countP (fun o => isExc o)
          = rest.countP (fun o => isExc o) + 1 := by
        simp [List.countP_cons, isExc]
      by_cases hmem : sig ∈ s.exceptions
      · have hstep : schedRun p s (CycleOutcome.exc sig :: rest)
            = schedRun p ⟨s.exception_count + 1, s.exceptions⟩ rest := by
          simp [schedRun, schedStep, hmem]
        rcases ih (s := ⟨s.exception_count + 1, s.exceptions⟩) hrest with ⟨h1, h2⟩
        have h2a : (schedRun p (⟨s.exception_count + 1, s.exceptions⟩ : SchedState)
              rest).1.exception_count
            = s.exception_count + 1 + rest.countP (fun o => isExc o) := h2
        rw [hstep, hc, h2a]
        exact ⟨h1, by omega⟩
      · have hstep : schedRun p s (CycleOutcome.exc sig :: rest)
            = schedRun p ⟨s.exception_count + 1, s.exceptions ++ [sig]⟩ rest := by
          simp [schedRun, schedStep, hmem]
        rcases ih (s := ⟨s.exception_count + 1, s.exceptions ++ [sig]⟩) hrest
          with ⟨h1, h2⟩
        have h2a : (schedRun p (⟨s.exception_count + 1,
              s.exceptions ++ [sig]⟩ : SchedState) rest).1.exception_count
            = s.exception_count + 1 + rest.countP (fun o => isExc o) := h2
        rw [hstep, hc, h2a]
        exact ⟨h1, by omega⟩

/-- C1 counterexample: the claim is false on the code.  Starting from the
initial scheduler state, four consecutive exceptions followed by one
successful cycle leave the consecutive-exception count at 4, not 0 (there is
no reset on success), and five consecutive exceptions leave the loop
retrying with the count at 5 — it never transitions to fatal and never
propagates the error upward. -/
theorem C1_scheduler_backoff_counterexample :
    (schedRun 60 ⟨0, []⟩
        [CycleOutcome.exc "boom".toList, CycleOutcome.exc "boom".toList,
         CycleOutcome.exc "boom".toList, CycleOutcome.exc "boom".toList,
         CycleOutcome.ok]).1.exception_count = 4 ∧
      ¬ (schedRun 60 ⟨0, []⟩
          [CycleOutcome.exc "boom".toList, CycleOutcome.exc "boom".toList,
           CycleOutcome.exc "boom".toList, CycleOutcome.exc "boom".toList,
           CycleOutcome.ok]).1.exception_count = 0 ∧
      (schedRun 60 ⟨0, []⟩
        [CycleOutcome.exc "boom".toList, CycleOutcome.exc "boom".toList,
         CycleOutcome.exc "boom".toList, CycleOutcome.exc "boom".toList,
         CycleOutcome.exc "boom".toList]).2 = false ∧
      (schedRun 60 ⟨0, []⟩
        [CycleOutcome.exc "boom".toList, CycleOutcome.exc "boom".toList,
         CycleOutcome.exc "boom".toList, CycleOutcome.exc "boom".toList,
         CycleOutcome.exc "boom".toList]).1.exception_count = 5 := by
  refine ⟨by decide, by decide, by decide, by decide⟩

/-- C1 (amended): when a cycle body raises a non-KeyboardInterrupt exception
the scheduler loop increments the consecutive-exception count, records a new
exception signature, and retries after a fixed 10-second delay; a successful
cycle continues after the poll interval without changing the count (no reset);
there is no escalation threshold: any run of outcomes free of
KeyboardInterrupt never propagates an error upward, and the count accumulates
one per exception. -/
theorem C1_scheduler_backoff_amended :
    (∀ (p : Nat) (s : SchedState) (sig : List Char),
        schedStep p s (CycleOutcome.exc sig)
          = StepResult.next
              ⟨s.exception_count + 1,
                if sig ∈ s.exceptions then s.exceptions
                else s.exceptions ++ [sig]⟩ 10) ∧
      (∀ (p : Nat) (s : SchedState),
        schedStep p s CycleOutcome.ok = StepResult.next s p) ∧
      (∀ (p : Nat) (s : SchedState) (os : List CycleOutcome),
        CycleOutcome.keyboard_interrupt ∉ os →
          (schedRun p s os).2 = false ∧
            (schedRun p s os).1.exception_count
              = s.exception_count + os.countP (fun o => isExc o)) := by
  refine ⟨?_, ?_, ?_⟩
  · intro p s sig
    by_cases hmem : sig ∈ s.exceptions <;> simp [schedStep, hmem]
  · intro p s
    rfl
  · intro p s os h
    exact schedRun_no_interrupt p s os h

/-- C1 witness: the amended theorem applied to a concrete interrupt-free run
of two exceptions and one success. -/
theorem C1_scheduler_backoff_witness :
    (schedRun 60 ⟨0, []⟩
        [CycleOutcome.exc "a".toList, CycleOutcome.exc "b".toList,
         CycleOutcome.ok]).2 = false ∧
      (schedRun 60 ⟨0, []⟩
          [CycleOutcome.exc "a".toList, CycleOutcome.exc "b".toList,
           CycleOutcome.ok]).1.exception_count
        = (⟨0, []⟩ : SchedState).exception_count +
            ([CycleOutcome.exc "a".toList, CycleOutcome.exc "b".toList,
              CycleOutcome.ok]).countP (fun o => isExc o) :=
  C1_scheduler_backoff_amended.2.2 60 ⟨0, []⟩
    [CycleOutcome.exc "a".toList, CycleOutcome.exc "b".toList, CycleOutcome.ok]
    (by decide)

/-- Helper: inside the bounds, evaluate_deal with no deal ranges is the
four-way quartile split (the unreachable final else never fires because
minPrice + 4 quarters equals maxPrice). -/
theorem evaluate_deal_in_range (p mn mx : ℚ) (h1 : mn ≤ p) (h2 : p ≤ mx) :
    evaluate_deal (some p) (some mn) (some mx) none =
      if p ≤ mn + (mx - mn) / 4 then Deal.FIRE_DEAL
      else if p ≤ mn + 2 * ((mx - mn) / 4) then Deal.GREAT_DEAL
      else if p ≤ mn + 3 * ((mx - mn) / 4) then Deal.GOOD_DEAL
      else Deal.OK_DEAL := by
  have hno : ¬(p < mn ∨ p > mx) := by
    push_neg
    exact ⟨h1, h2⟩
  have h4 : mn + 4 * ((mx - mn) / 4) = mx := by ring
  simp only [evaluate_deal, if_neg hno]
  split_ifs with ha hb hc hd
  · rfl
  · rfl
  · rfl
  · rfl
  · exfalso
    apply hd
    rw [h4]
    exact h2

/-- C2: with dealRanges absent, evaluate_deal totally classifies: unknown when
the price is absent, when a bound is absent, or when the price falls outside
the bounds; otherwise exactly the tier of the equal-width quarter containing
the price, the upper bound of each quarter inclusive (never unknown in range); and
on minPrice=100, maxPrice=140: 110 is fire, 110.01 is great, 140 is ok. -/
theorem C2_evaluate_deal_quartiles :
    (∀ mn mx : Option ℚ, evaluate_deal none mn mx none = Deal.UNKNOWN_DEAL) ∧
      (∀ (p : ℚ) (mx : Option ℚ),
        evaluate_deal (some p) none mx none = Deal.UNKNOWN_DEAL) ∧
      (∀ p mn : ℚ,
        evaluate_deal (some p) (some mn) none none = Deal.UNKNOWN_DEAL) ∧
      (∀ p mn mx : ℚ, p < mn ∨ mx < p →
        evaluate_deal (some p) (some mn) (some mx) none = Deal.UNKNOWN_DEAL) ∧
      (∀ p mn mx : ℚ, mn ≤ p → p ≤ mx →
        evaluate_deal (some p) (some mn) (some mx) none ≠ Deal.UNKNOWN_DEAL ∧
          (evaluate_deal (some p) (some mn) (some mx) none = Deal.FIRE_DEAL
            ↔ p ≤ mn + (mx - mn) / 4) ∧
          (evaluate_deal (some p) (some mn) (some mx) none = Deal.GREAT_DEAL
            ↔ mn + (mx - mn) / 4 < p ∧ p ≤ mn + 2 * ((mx - mn) / 4)) ∧
          (evaluate_deal (some p) (some mn) (some mx) none = Deal.GOOD_DEAL
            ↔ mn + 2 * ((mx - mn) / 4) < p ∧ p ≤ mn + 3 * ((mx - mn) / 4)) ∧
          (evaluate_deal (some p) (some mn) (some mx) none = Deal.OK_DEAL
            ↔ mn + 3 * ((mx - mn) / 4) < p)) ∧
      evaluate_deal (some 110) (some 100) (some 140) none = Deal.FIRE_DEAL ∧
      evaluate_deal (some (11001 / 100 : ℚ)) (some 100) (some 140) none
        = Deal.GREAT_DEAL ∧
      evaluate_deal (some 140) (some 100) (some 140) none = Deal.OK_DEAL := by
  refine ⟨fun mn mx => rfl, fun p mx => rfl, fun p mn => rfl, ?_, ?_, ?_, ?_, ?_⟩
  · intro p mn mx h
    have hor : p < mn ∨ p > mx := by
      rcases h with h | h
      · exact Or.inl h
      · exact Or.inr h
    simp only [evaluate_deal, if_pos hor]
  · intro p mn mx h1 h2
    rw [evaluate_deal_in_range p mn mx h1 h2]
    split_ifs with ha hb hc
    · refine ⟨by decide, iff_of_true rfl ha, ?_, ?_, ?_⟩
      · refine iff_of_false (by decide) ?_
        rintro ⟨hx, -⟩
        linarith
      · refine iff_of_false (by decide) ?_
        rintro ⟨hx, -⟩
        linarith
      · refine iff_of_false (by decide) ?_
        intro hx
        linarith
    · refine ⟨by decide, iff_of_false (by decide) ha,
        iff_of_true rfl ⟨not_le.mp ha, hb⟩, ?_, ?_⟩
      · refine iff_of_false (by decide) ?_
        rintro ⟨hx, -⟩
        linarith
      · refine iff_of_false (by decide) ?_
        intro hx
        linarith
    · refine ⟨by decide, iff_of_false (by decide) ha, ?_,
        iff_of_true rfl ⟨not_le.mp hb, hc⟩, ?_⟩
      · refine iff_of_false (by decide) ?_
        rintro ⟨-, hy⟩
        exact hb hy
      · refine iff_of_false (by decide) ?_
        intro hx
        linarith
    · refine ⟨by decide, iff_of_false (by decide) ha, ?_, ?_,
        iff_of_true rfl (not_le.mp hc)⟩
      · refine iff_of_false (by decide) ?_
        rintro ⟨-, hy⟩
        exact hb hy
      · refine iff_of_false (by decide) ?_
        rintro ⟨-, hy⟩
        exact hc hy
  · norm_num [evaluate_deal]
  · norm_num [evaluate_deal]
  · norm_num [evaluate_deal]

/-- C2 witness: the out-of-range and in-range clauses of the theorem applied
at concrete prices with bounds 100..140. -/
theorem C2_evaluate_deal_quartiles_witness :
    evaluate_deal (some 50) (some 100) (some 140) none = Deal.UNKNOWN_DEAL ∧
      evaluate_deal (some 115) (some 100) (some 140) none ≠ Deal.UNKNOWN_DEAL :=
  ⟨C2_evaluate_deal_quartiles.2.2.2.1 50 100 140 (Or.inl (by norm_num)),
    (C2_evaluate_deal_quartiles.2.2.2.2.1 115 100 140 (by norm_num)
      (by norm_num)).1⟩

/-- C4: matches_pattern is total over any regex engine behaviour: with the
sentinel, a successful engine answer is returned as-is, an engine compile
failure degrades to a literal case-insensitive substring test on the
remainder as-is, and without the sentinel the result is a literal
case-insensitive substring test on the whole pattern. -/
theorem C4_matches_pattern_total :
    ∀ (eng : RegexOracle) (text pat : List Char),
      (startsWithL sentinel pat = false →
          matches_pattern eng text pat
            = containsSubstring (lowerL pat) (lowerL text)) ∧
        (∀ b : Bool, startsWithL sentinel pat = true →
          eng (pat.drop sentinel.length) (lowerL text) = some b →
          matches_pattern eng text pat = b) ∧
        (startsWithL sentinel pat = true →
          eng (pat.drop sentinel.length) (lowerL text) = none →
          matches_pattern eng text pat
            = containsSubstring (lowerL (pat.drop sentinel.length))
                (lowerL text)) := by
  intro eng text pat
  refine ⟨?_, ?_, ?_⟩
  · intro h
    simp [matches_pattern, h]
  · intro b h he
    simp [matches_pattern, h, he]
  · intro h he
    simp [matches_pattern, h, he]

/-- C4 witness: the three clauses at concrete inputs, including a simulated
compile failure (engine answering none) degrading to the literal test. -/
theorem C4_matches_pattern_total_witness :
    matches_pattern (fun _ _ => none) "Hello World".toList "WORLD".toList
        = containsSubstring (lowerL "WORLD".toList) (lowerL "Hello World".toList) ∧
      matches_pattern (fun _ _ => some false) "Hello".toList "regexp::ell".toList
        = false ∧
      matches_pattern (fun _ _ => none) "Hello".toList "regexp::ell".toList
        = containsSubstring
            (lowerL ("regexp::ell".toList.drop sentinel.length))
            (lowerL "Hello".toList) :=
  ⟨(C4_matches_pattern_total (fun _ _ => none) "Hello World".toList
      "WORLD".toList).1 (by decide),
    (C4_matches_pattern_total (fun _ _ => some false) "Hello".toList
      "regexp::ell".toList).2.1 false (by decide) rfl,
    (C4_matches_pattern_total (fun _ _ => none) "Hello".toList
      "regexp::ell".toList).2.2 (by decide) rfl⟩

/-- Helper: the keyword loop returns the first keyword satisfying the
acceptance predicate (pattern match, not price-rejected, not
condition-rejected); rejected keywords only skip to the next one. -/
theorem findKeywordMatch_eq_find (cfg : GlobalConfig) (eng : RegexOracle)
    (item : EbayItem) (tl : List Char) (kws : List Keyword) :
    findKeywordMatch cfg eng item tl kws
      = kws.find? (keywordAccepts cfg eng item tl) := by
  induction kws with
  | nil => rfl
  | cons kw rest ih =>
    by_cases hm : matches_pattern eng tl kw.keyword
    · by_cases hp : priceRejects cfg item kw
      · simp [findKeywordMatch, keywordAccepts, List.find?, hm, hp, ih]
      · by_cases hc : conditionRejects cfg item
        · simp [findKeywordMatch, keywordAccepts, List.find?, hm, hp, hc, ih]
        · simp [findKeywordMatch, keywordAccepts, List.find?, hm, hp, hc]
    · simp [findKeywordMatch, keywordAccepts, List.find?, hm, ih]

/-- C5: the rule evaluator scans the KeywordRules in list order and accepts
exactly the first one whose pattern matches the lowered title and that is
rejected neither by the price filter (over the effective price, shipping per
the global toggle) nor by the condition blocklist — a rejected KeywordRule
only skips to the remaining ones; when none accepts, the evaluator returns
no-match. -/
theorem C5_keyword_scan_first_accepted :
    (∀ (cfg : GlobalConfig) (eng : RegexOracle) (item : EbayItem)
        (tl : List Char) (kws : List Keyword),
      findKeywordMatch cfg eng item tl kws
        = kws.find? (keywordAccepts cfg eng item tl)) ∧
      (∀ (cfg : GlobalConfig) (eng : RegexOracle) (item : EbayItem)
          (ping : PingConfig),
        ping.keywords.find? (keywordAccepts cfg eng item (lowerL item.title))
            = none →
          matches_ping_criteria cfg eng item ping = noMatch) := by
  refine ⟨findKeywordMatch_eq_find, ?_⟩
  intro cfg eng item ping h
  have hf : findKeywordMatch cfg eng item (lowerL item.title) ping.keywords
      = none := by
    rw [findKeywordMatch_eq_find]
    exact h
  simp [matches_ping_criteria, hf]

/-- C5 witness: the scan clause on a concrete two-keyword rule whose first
keyword pattern-matches but is price-rejected, and the no-match clause on a
rule with no matching keyword. -/
theorem C5_keyword_scan_first_accepted_witness :
    findKeywordMatch ({} : GlobalConfig) (fun _ _ => none)
        ({ full_item_id := "i1".toList, item_id := 1,
           title := "gpu".toList } : EbayItem) "gpu".toList
        [{ keyword := "gpu".toList }, { keyword := "zzz".toList }]
      = [({ keyword := "gpu".toList } : Keyword),
          { keyword := "zzz".toList }].find?
          (keywordAccepts ({} : GlobalConfig) (fun _ _ => none)
            ({ full_item_id := "i1".toList, item_id := 1,
               title := "gpu".toList } : EbayItem) "gpu".toList) ∧
      matches_ping_criteria ({} : GlobalConfig) (fun _ _ => none)
          ({ full_item_id := "i1".toList, item_id := 1,
             title := "gpu".toList } : EbayItem)
          ({ category_name := "g".toList, categories := [1],
             keywords := [{ keyword := "zzz".toList }] } : PingConfig)
        = noMatch :=
  ⟨C5_keyword_scan_first_accepted.1 {} (fun _ _ => none)
      { full_item_id := "i1".toList, item_id := 1, title := "gpu".toList }
      "gpu".toList
      [{ keyword := "gpu".toList }, { keyword := "zzz".toList }],
    C5_keyword_scan_first_accepted.2 {} (fun _ _ => none)
      { full_item_id := "i1".toList, item_id := 1, title := "gpu".toList }
      { category_name := "g".toList, categories := [1],
        keywords := [{ keyword := "zzz".toList }] }
      (by decide)⟩

/-- C6: exclusions are absolute — whenever the lowered title matches any of
the exclude keywords of the rule, matches_ping_criteria reports no match,
whatever the keyword list, blocklist-override patterns and remaining listing
fields are. -/
theorem C6_exclusions_absolute :
    ∀ (cfg : GlobalConfig) (eng : RegexOracle) (item : EbayItem)
      (ping : PingConfig),
      ping.exclude_keywords.any
          (fun ek => matches_pattern eng (lowerL item.title) ek) = true →
      (matches_ping_criteria cfg eng item ping).is_match = false := by
  intro cfg eng item ping h
  cases hf : findKeywordMatch cfg eng item (lowerL item.title) ping.keywords with
  | none => simp [matches_ping_criteria, hf, noMatch]
  | some kw => simp [matches_ping_criteria, hf, h, noMatch]

/-- C6 witness: a listing whose title matches both an accepted KeywordRule
and an exclude keyword, with the exclude keyword also listed among the
blocklist-override patterns, still yields no match. -/
theorem C6_exclusions_absolute_witness :
    (matches_ping_criteria ({} : GlobalConfig) (fun _ _ => none)
        ({ full_item_id := "i2".toList, item_id := 2,
           title := "gpu for parts".toList,
           buying_options := [BuyingOption.FIXED_PRICE] } : EbayItem)
        ({ category_name := "g".toList, categories := [1],
           keywords := [{ keyword := "gpu".toList }],
           exclude_keywords := ["for parts".toList],
           blocklist_override := ["for parts".toList] } : PingConfig)).is_match
      = false :=
  C6_exclusions_absolute {} (fun _ _ => none)
    { full_item_id := "i2".toList, item_id := 2,
      title := "gpu for parts".toList,
      buying_options := [BuyingOption.FIXED_PRICE] }
    { category_name := "g".toList, categories := [1],
      keywords := [{ keyword := "gpu".toList }],
      exclude_keywords := ["for parts".toList],
      blocklist_override := ["for parts".toList] }
    (by decide)

/-- Helper: membership after folding insertUnique. -/
theorem mem_foldl_insertUnique (l : List Nat) (acc : List Nat) (x : Nat) :
    x ∈ l.foldl insertUnique acc ↔ x ∈ acc ∨ x ∈ l := by
  induction l generalizing acc with
  | nil => simp
  | cons c t ih =>
    rw [List.foldl_cons, ih (insertUnique acc c)]
    by_cases hc : c ∈ acc
    · simp only [insertUnique, if_pos hc, List.mem_cons]
      constructor
      · rintro (h | h)
        · exact Or.inl h
        · exact Or.inr (Or.inr h)
      · rintro (h | h | h)
        · exact Or.inl h
        · exact Or.inl (h ▸ hc)
        · exact Or.inr h
    · simp only [insertUnique, if_neg hc, List.mem_append, List.mem_singleton,
        List.mem_cons]
      tauto

/-- Helper: folding insertUnique preserves Nodup. -/
theorem nodup_foldl_insertUnique (l : List Nat) (acc : List Nat)
    (h : acc.Nodup) : (l.foldl insertUnique acc).Nodup := by
  induction l generalizing acc with
  | nil => exact h
  | cons c t ih =>
    simp only [List.foldl_cons]
    apply ih
    by_cases hc : c ∈ acc
    · simpa [insertUnique, hc] using h
    · rw [insertUnique, if_neg hc, List.nodup_append]
      refine ⟨h, List.nodup_singleton c, ?_⟩
      intro a ha hb
      rw [List.mem_singleton] at hb
      exact hc (hb ▸ ha)

/-- Helper: a category id is in dedupCategories exactly when some ping
references it. -/
theorem mem_dedupCategories (pings : List PingConfig) (c : Nat) :
    c ∈ dedupCategories pings ↔ ∃ p ∈ pings, c ∈ p.categories := by
  suffices h : ∀ acc : List Nat,
      c ∈ pings.foldl (fun acc p => p.categories.foldl insertUnique acc) acc
        ↔ c ∈ acc ∨ ∃ p ∈ pings, c ∈ p.categories by
    simpa [dedupCategories] using h []
  induction pings with
  | nil => simp
  | cons p t ih =>
    intro acc
    simp only [List.foldl_cons, ih, mem_foldl_insertUnique, List.mem_cons]
    constructor
    · rintro ((h | h) | ⟨q, hq, hcq⟩)
      · exact Or.inl h
      · exact Or.inr ⟨p, Or.inl rfl, h⟩
      · exact Or.inr ⟨q, Or.inr hq, hcq⟩
    · rintro (h | ⟨q, hq | hq, hcq⟩)
      · exact Or.inl (Or.inl h)
      · exact Or.inl (Or.inr (hq ▸ hcq))
      · exact Or.inr ⟨q, hq, hcq⟩

/-- Helper: dedupCategories has no duplicates. -/
theorem nodup_dedupCategories (pings : List PingConfig) :
    (dedupCategories pings).Nodup := by
  suffices h : ∀ acc : List Nat, acc.Nodup →
      (pings.foldl (fun acc p => p.categories.foldl insertUnique acc)
        acc).Nodup by
    exact h [] (by simp)
  induction pings with
  | nil =>
    intro acc h
    exact h
  | cons p t ih =>
    intro acc h
    exact ih _ (nodup_foldl_insertUnique _ _ h)

/-- Helper: the per-cycle cache answers every fetched category with the
single fetch result of that category. -/
theorem cacheGet_buildCache (fetch : Nat → List EbayItem) (cats : List Nat)
    (c : Nat) (h : c ∈ cats) :
    cacheGet (buildCache fetch cats) c = fetch c := by
  induction cats with
  | nil => cases h
  | cons a t ih =>
    by_cases hac : a = c
    · subst hac
      simp [cacheGet, buildCache, List.find?]
    · have ht : c ∈ t := by
        rcases List.mem_cons.mp h with h1 | h1
        · exact absurd h1.symm hac
        · exact h1
      have hbeq : (a == c) = false := by
        simp [hac]
      simpa [cacheGet, buildCache, List.find?, hbeq] using ih ht

/-- C7: in every cycle, a category id referenced by at least one rule occurs
exactly once in the fetch list (dedupCategories) even when rules share it, an
unreferenced category id is never fetched, and the per-cycle cache answers
each referenced category with the single fetch result of that category. -/
theorem C7_each_category_fetched_once :
    ∀ (pings : List PingConfig) (fetch : Nat → List EbayItem) (c : Nat),
      ((∃ p ∈ pings, c ∈ p.categories) →
          (dedupCategories pings).count c = 1 ∧
            cacheGet (buildCache fetch (dedupCategories pings)) c = fetch c) ∧
        (¬(∃ p ∈ pings, c ∈ p.categories) →
          (dedupCategories pings).count c = 0) := by
  intro pings fetch c
  constructor
  · intro h
    have hm : c ∈ dedupCategories pings := (mem_dedupCategories pings c).mpr h
    exact ⟨List.count_eq_one_of_mem (nodup_dedupCategories pings) hm,
      cacheGet_buildCache fetch _ c hm⟩
  · intro h
    exact List.count_eq_zero.mpr fun hm => h ((mem_dedupCategories pings c).mp hm)

/-- C7 witness: two rules sharing category 9355 — the fetch list mentions
9355 exactly once and the cache serves its fetch result. -/
theorem C7_each_category_fetched_once_witness :
    (dedupCategories
        [{ category_name := "a".toList, categories := [9355], keywords := [] },
         { category_name := "b".toList, categories := [9355],
           keywords := [] }]).count 9355 = 1 ∧
      cacheGet
          (buildCache (fun _ => [])
            (dedupCategories
              [{ category_name := "a".toList, categories := [9355],
                 keywords := [] },
               { category_name := "b".toList, categories := [9355],
                 keywords := [] }]))
          9355
        = (fun _ => ([] : List EbayItem)) 9355 :=
  (C7_each_category_fetched_once
      [{ category_name := "a".toList, categories := [9355], keywords := [] },
       { category_name := "b".toList, categories := [9355], keywords := [] }]
      (fun _ => []) 9355).1
    ⟨{ category_name := "a".toList, categories := [9355], keywords := [] },
      by decide, by decide⟩

/-- Helper: is_seen as row existence. -/
theorem is_seen_iff (db : List SeenRecord) (x : Nat) :
    is_seen db x = true ↔ ∃ r ∈ db, r.item_id = x := by
  simp [is_seen, List.any_eq_true]

/-- Helper: how mark_seen changes is_seen, with no hypothesis: the marked id
becomes seen and every other id keeps its previous status. -/
theorem is_seen_mark_seen (db : List SeenRecord) (id now : Nat)
    (cname : Option (List Char)) (title mode : List Char) (q : Nat) :
    is_seen (mark_seen db id now cname title mode) q
      = (is_seen db q || q == id) := by
  by_cases hq : q = id
  · subst hq
    simp [is_seen, mark_seen, List.any_append]
  · have h2 : (q == id) = false := by simp [hq]
    have h3 : (id == q) = false := by simp [Ne.symm hq]
    rw [h2, Bool.or_false]
    rw [Bool.eq_iff_iff]
    simp only [is_seen, mark_seen, List.any_append, List.any_filter,
      List.any_cons, List.any_nil, Bool.or_false, Bool.or_eq_true,
      List.any_eq_true, Bool.and_eq_true, bne_iff_ne, beq_iff_eq]
    constructor
    · rintro (⟨r, hr, -, hrq⟩ | hfalse)
      · exact ⟨r, hr, hrq⟩
      · exact absurd hfalse fun hh => hq hh.symm
    · rintro ⟨r, hr, hrq⟩
      exact Or.inl ⟨r, hr, fun hh => hq (hrq.symm.trans hh), hrq⟩

/-- Helper: marking any id preserves every already-seen id. -/
theorem is_seen_mark_seen_mono (db : List SeenRecord) (id now : Nat)
    (cname : Option (List Char)) (title mode : List Char) (x : Nat)
    (h : is_seen db x = true) :
    is_seen (mark_seen db id now cname title mode) x = true := by
  rw [is_seen_mark_seen, h, Bool.true_or]

/-- C8: once mark_seen completes (no storage failure modelled), is_seen
answers true, and keeps answering true across any further sequence of
mark_seen operations (only a retention cleanup can remove the record, and it
removes records exactly by age); re-marking an already-seen id is an
idempotent upsert that never errors (the model is total) and leaves the seen
status of every id observably unchanged. -/
theorem C8_ledger_mark_is_seen :
    (∀ (db : List SeenRecord) (id now : Nat) (cname : Option (List Char))
        (title mode : List Char),
      is_seen (mark_seen db id now cname title mode) id = true) ∧
      (∀ (db : List SeenRecord) (id now : Nat) (cname : Option (List Char))
          (title mode : List Char) (ops : List LedgerOp),
        (∀ n d, LedgerOp.cleanup n d ∉ ops) →
          is_seen (applyOps (mark_seen db id now cname title mode) ops) id
            = true) ∧
      (∀ (db : List SeenRecord) (id now : Nat) (cname : Option (List Char))
          (title mode : List Char),
        is_seen db id = true →
          ∀ q, is_seen (mark_seen db id now cname title mode) q
            = is_seen db q) ∧
      (∀ (db : List SeenRecord) (now days x : Nat),
        is_seen (cleanup_old_items db now days).1 x
          = db.any fun r =>
              !(r.timestamp < now - days * 24 * 60 * 60) &&
                r.item_id == x) := by
  have hself : ∀ (db : List SeenRecord) (id now : Nat)
      (cname : Option (List Char)) (title mode : List Char),
      is_seen (mark_seen db id now cname title mode) id = true := by
    intro db id now cname title mode
    rw [is_seen_mark_seen]
    simp
  refine ⟨hself, ?_, ?_, ?_⟩
  · intro db id now cname title mode ops hno
    have h0 : is_seen (mark_seen db id now cname title mode) id = true :=
      hself db id now cname title mode
    generalize mark_seen db id now cname title mode = db0 at h0 ⊢
    induction ops generalizing db0 with
    | nil => exact h0
    | cons op rest ih =>
      have hrest : ∀ n d, LedgerOp.cleanup n d ∉ rest := by
        intro n d hn
        exact hno n d (List.mem_cons_of_mem _ hn)
      cases op with
      | mark mid mnow mcname mtitle mmode =>
        exact ih hrest _
          (is_seen_mark_seen_mono db0 mid mnow mcname mtitle mmode id h0)
      | cleanup n d =>
        exact absurd (List.mem_cons_self _ _) (hno n d)
  · intro db id now cname title mode h q
    rw [is_seen_mark_seen]
    by_cases hq : q = id
    · subst hq
      simp [h]
    · simp [hq]
  · intro db now days x
    simp [is_seen, cleanup_old_items, List.any_filter]

/-- C8 witness: a concrete ledger — after marking id 5 it is seen, stays
seen across a later mark of id 6, and re-marking 5 leaves every status
unchanged. -/
theorem C8_ledger_mark_is_seen_witness :
    is_seen (mark_seen [] 5 100 none "t".toList "".toList) 5 = true ∧
      is_seen
          (applyOps (mark_seen [] 5 100 none "t".toList "".toList)
            [LedgerOp.mark 6 200 none "u".toList "".toList]) 5
        = true ∧
      is_seen
          (mark_seen (mark_seen [] 5 100 none "t".toList "".toList) 5 300 none
            "t2".toList "".toList) 6
        = is_seen (mark_seen [] 5 100 none "t".toList "".toList) 6 :=
  ⟨C8_ledger_mark_is_seen.1 [] 5 100 none "t".toList "".toList,
    C8_ledger_mark_is_seen.2.1 [] 5 100 none "t".toList "".toList
      [LedgerOp.mark 6 200 none "u".toList "".toList]
      (by intro n d hn; simp at hn),
    C8_ledger_mark_is_seen.2.2.1 (mark_seen [] 5 100 none "t".toList "".toList)
      5 300 none "t2".toList "".toList (by decide) 6⟩

/-- Helper: with an absent price value the price filter never rejects. -/
theorem priceRejects_none (cfg : GlobalConfig) (item : EbayItem)
    (kw : Keyword) (h : item.price_value = none) :
    priceRejects cfg item kw = false := by
  simp [priceRejects, truthyQ, h]

/-- Helper: with an absent price value, the keyword scan over bound-stripped
keywords finds the bound-stripped version of what the original scan finds. -/
theorem findKeywordMatch_stripKw (cfg : GlobalConfig) (eng : RegexOracle)
    (item : EbayItem) (tl : List Char) (kws : List Keyword)
    (h : item.price_value = none) :
    findKeywordMatch cfg eng item tl (kws.map stripKw)
      = (findKeywordMatch cfg eng item tl kws).map stripKw := by
  induction kws with
  | nil => rfl
  | cons kw rest ih =>
    have hkw : (stripKw kw).keyword = kw.keyword := rfl
    by_cases hm : matches_pattern eng tl kw.keyword
    · by_cases hc : conditionRejects cfg item
      · simp [findKeywordMatch, hkw, hm, hc, ih,
          priceRejects_none cfg item (stripKw kw) h,
          priceRejects_none cfg item kw h]
      · simp [findKeywordMatch, hkw, hm, hc,
          priceRejects_none cfg item (stripKw kw) h,
          priceRejects_none cfg item kw h]
    · simp [findKeywordMatch, hkw, hm, ih]

/-- C9: the price normalization of EbayItem.price turns a raw price of 0
(and an absent raw price) into absent; with an absent price value the rule
evaluator never price-rejects any KeywordRule — its match outcome is the
same as with the price bounds of every keyword removed — and in particular a
price-less listing is accepted by a KeywordRule that specifies price
bounds. -/
theorem C9_absent_price_skips_price_checks :
    normalize_price (some 0) = none ∧
      normalize_price none = none ∧
      (∀ (cfg : GlobalConfig) (item : EbayItem) (kw : Keyword),
        item.price_value = none → priceRejects cfg item kw = false) ∧
      (∀ (cfg : GlobalConfig) (eng : RegexOracle) (item : EbayItem)
          (ping : PingConfig),
        item.price_value = none →
          (matches_ping_criteria cfg eng item ping).is_match
            = (matches_ping_criteria cfg eng item (stripPing ping)).is_match) ∧
      (matches_ping_criteria ({} : GlobalConfig) (fun _ _ => none)
          ({ full_item_id := "i3".toList, item_id := 3,
             title := "gpu bundle".toList, price_value := none,
             buying_options := [BuyingOption.FIXED_PRICE] } : EbayItem)
          ({ category_name := "g".toList, categories := [1],
             keywords := [{ keyword := "gpu".toList, min_price := some 200, max_price := some 500 }] } : PingConfig)).is_match = true := by
  refine ⟨rfl, rfl, priceRejects_none, ?_, by decide⟩
  intro cfg eng item ping h
  have hf : findKeywordMatch cfg eng item (lowerL item.title)
        ((stripPing ping).keywords)
      = (findKeywordMatch cfg eng item (lowerL item.title)
          ping.keywords).map stripKw :=
    findKeywordMatch_stripKw cfg eng item (lowerL item.title) ping.keywords h
  simp only [matches_ping_criteria]
  rw [hf]
  cases findKeywordMatch cfg eng item (lowerL item.title) ping.keywords with
  | none => rfl
  | some kw =>
    have hex : (stripPing ping).exclude_keywords = ping.exclude_keywords := rfl
    have hbo : (stripPing ping).blocklist_override = ping.blocklist_override :=
      rfl
    simp only [Option.map_some', hex, hbo]
    split_ifs <;> rfl

/-- C9 witness: the strip-bounds clause applied to a concrete price-less
listing and a rule whose only keyword carries price bounds. -/
theorem C9_absent_price_skips_price_checks_witness :
    (matches_ping_criteria ({} : GlobalConfig) (fun _ _ => none)
        ({ full_item_id := "i3".toList, item_id := 3,
           title := "gpu bundle".toList, price_value := none,
           buying_options := [BuyingOption.FIXED_PRICE] } : EbayItem)
        ({ category_name := "g".toList, categories := [1],
           keywords := [{ keyword := "gpu".toList, min_price := some 200, max_price := some 500 }] } : PingConfig)).is_match
      = (matches_ping_criteria ({} : GlobalConfig) (fun _ _ => none)
          ({ full_item_id := "i3".toList, item_id := 3,
             title := "gpu bundle".toList, price_value := none,
             buying_options := [BuyingOption.FIXED_PRICE] } : EbayItem)
          (stripPing
            ({ category_name := "g".toList, categories := [1],
               keywords := [{ keyword := "gpu".toList, min_price := some 200, max_price := some 500 }] } : PingConfig))).is_match :=
  C9_absent_price_skips_price_checks.2.2.2.1 {} (fun _ _ => none)
    { full_item_id := "i3".toList, item_id := 3,
      title := "gpu bundle".toList, price_value := none,
      buying_options := [BuyingOption.FIXED_PRICE] }
    { category_name := "g".toList, categories := [1],
      keywords := [{ keyword := "gpu".toList, min_price := some 200, max_price := some 500 }] }
    rfl

/-- Helper: processItem only ever adds to the seen ledger. -/
theorem processItem_seen_mono (cfg : GlobalConfig) (eng : RegexOracle)
    (now : Nat) (ping : PingConfig) (st : CycleState) (item : EbayItem)
    (x : Nat) (h : is_seen st.seen x = true) :
    is_seen (processItem cfg eng now ping st item).seen x = true := by
  simp only [processItem]
  split_ifs with ha hb
  · exact h
  · exact is_seen_mark_seen_mono _ _ _ _ _ _ _ h
  · exact is_seen_mark_seen_mono _ _ _ _ _ _ _ h

/-- Helper: a fold of processItem only ever adds to the seen ledger. -/
theorem foldl_processItem_seen_mono (cfg : GlobalConfig) (eng : RegexOracle)
    (now : Nat) (ping : PingConfig) (items : List EbayItem) (st : CycleState)
    (x : Nat) (h : is_seen st.seen x = true) :
    is_seen ((items.foldl (processItem cfg eng now ping) st).seen) x = true := by
  induction items generalizing st with
  | nil => exact h
  | cons it t ih =>
    exact ih _ (processItem_seen_mono _ _ _ _ _ _ _ h)

/-- Helper: after processItem the processed listing id is seen. -/
theorem processItem_marks_self (cfg : GlobalConfig) (eng : RegexOracle)
    (now : Nat) (ping : PingConfig) (st : CycleState) (item : EbayItem) :
    is_seen (processItem cfg eng now ping st item).seen item.item_id = true := by
  simp only [processItem]
  split_ifs with ha hb
  · exact ha
  · rw [is_seen_mark_seen]
    simp
  · rw [is_seen_mark_seen]
    simp

/-- Helper: after folding processItem over a list of listings, every listing
of the list is seen. -/
theorem foldl_processItem_marks (cfg : GlobalConfig) (eng : RegexOracle)
    (now : Nat) (ping : PingConfig) (items : List EbayItem) (st : CycleState)
    (it : EbayItem) (h : it ∈ items) :
    is_seen ((items.foldl (processItem cfg eng now ping) st).seen) it.item_id
      = true := by
  induction items generalizing st with
  | nil => cases h
  | cons a t ih =>
    rcases List.mem_cons.mp h with h1 | h1
    · subst h1
      exact foldl_processItem_seen_mono _ _ _ _ t _ _
        (processItem_marks_self _ _ _ _ _ _)
    · exact ih _ h1

/-- Helper: processPing only ever adds to the seen ledger. -/
theorem processPing_seen_mono (cfg : GlobalConfig) (eng : RegexOracle)
    (now : Nat) (cache : List (Nat × List EbayItem)) (st : CycleState)
    (ping : PingConfig) (x : Nat) (h : is_seen st.seen x = true) :
    is_seen (processPing cfg eng now cache st ping).seen x = true :=
  foldl_processItem_seen_mono _ _ _ _ _ _ _ h

/-- Helper: a fold of processPing only ever adds to the seen ledger. -/
theorem foldl_processPing_seen_mono (cfg : GlobalConfig) (eng : RegexOracle)
    (now : Nat) (cache : List (Nat × List EbayItem)) (l : List PingConfig)
    (st : CycleState) (x : Nat) (h : is_seen st.seen x = true) :
    is_seen ((l.foldl (processPing cfg eng now cache) st).seen) x = true := by
  induction l generalizing st with
  | nil => exact h
  | cons p t ih =>
    exact ih _ (processPing_seen_mono _ _ _ _ _ _ _ h)

/-- Helper: after folding processPing over a list of rules, every listing of
every processed rule is seen. -/
theorem foldl_processPing_marks (cfg : GlobalConfig) (eng : RegexOracle)
    (now : Nat) (cache : List (Nat × List EbayItem)) (l : List PingConfig)
    (st : CycleState) (p : PingConfig) (it : EbayItem) (hp : p ∈ l)
    (hit : it ∈ combineItems cache p.categories) :
    is_seen ((l.foldl (processPing cfg eng now cache) st).seen) it.item_id
      = true := by
  rcases List.append_of_mem hp with ⟨s, t, rfl⟩
  rw [List.foldl_append, List.foldl_cons]
  apply foldl_processPing_seen_mono
  exact foldl_processItem_marks cfg eng now p _ _ it hit

/-- Helper: processing an already-seen listing is a no-op: it is skipped with
no evaluation, no notification and no state change. -/
theorem processItem_skip (cfg : GlobalConfig) (eng : RegexOracle) (now : Nat)
    (ping : PingConfig) (st : CycleState) (item : EbayItem)
    (h : is_seen st.seen item.item_id = true) :
    processItem cfg eng now ping st item = st := by
  simp only [processItem]
  rw [if_pos h]

/-- Helper: processItem preserves the notification invariant (no duplicate
notifications, every notified id seen). -/
theorem processItem_inv (cfg : GlobalConfig) (eng : RegexOracle) (now : Nat)
    (ping : PingConfig) (st : CycleState) (item : EbayItem)
    (h1 : st.notified.Nodup)
    (h2 : ∀ x ∈ st.notified, is_seen st.seen x = true) :
    (processItem cfg eng now ping st item).notified.Nodup ∧
      ∀ x ∈ (processItem cfg eng now ping st item).notified,
        is_seen (processItem cfg eng now ping st item).seen x = true := by
  simp only [processItem]
  split_ifs with ha hb
  · exact ⟨h1, h2⟩
  · constructor
    · rw [List.nodup_append]
      refine ⟨h1, List.nodup_singleton _, ?_⟩
      rw [List.disjoint_singleton]
      intro hmem
      exact ha (h2 _ hmem)
    · intro x hx
      rcases List.mem_append.mp hx with hx1 | hx1
      · exact is_seen_mark_seen_mono _ _ _ _ _ _ _ (h2 x hx1)
      · rw [List.mem_singleton] at hx1
        subst hx1
        rw [is_seen_mark_seen]
        simp
  · exact ⟨h1, fun x hx => is_seen_mark_seen_mono _ _ _ _ _ _ _ (h2 x hx)⟩

/-- Helper: a fold of processItem preserves the notification invariant. -/
theorem foldl_processItem_inv (cfg : GlobalConfig) (eng : RegexOracle)
    (now : Nat) (ping : PingConfig) (items : List EbayItem) (st : CycleState)
    (h1 : st.notified.Nodup)
    (h2 : ∀ x ∈ st.notified, is_seen st.seen x = true) :
    ((items.foldl (processItem cfg eng now ping) st).notified).Nodup ∧
      ∀ x ∈ (items.foldl (processItem cfg eng now ping) st).notified,
        is_seen ((items.foldl (processItem cfg eng now ping) st).seen) x
          = true := by
  induction items generalizing st with
  | nil => exact ⟨h1, h2⟩
  | cons it t ih =>
    rcases processItem_inv cfg eng now ping st it h1 h2 with ⟨g1, g2⟩
    exact ih _ g1 g2

/-- Helper: a fold of processPing (and hence runCycle) preserves the
notification invariant. -/
theorem foldl_processPing_inv (cfg : GlobalConfig) (eng : RegexOracle)
    (now : Nat) (cache : List (Nat × List EbayItem)) (l : List PingConfig)
    (st : CycleState) (h1 : st.notified.Nodup)
    (h2 : ∀ x ∈ st.notified, is_seen st.seen x = true) :
    ((l.foldl (processPing cfg eng now cache) st).notified).Nodup ∧
      ∀ x ∈ (l.foldl (processPing cfg eng now cache) st).notified,
        is_seen ((l.foldl (processPing cfg eng now cache) st).seen) x
          = true := by
  induction l generalizing st with
  | nil => exact ⟨h1, h2⟩
  | cons p t ih =>
    rcases foldl_processItem_inv cfg eng now p
      (combineItems cache p.categories) st h1 h2 with ⟨g1, g2⟩
    exact ih _ g1 g2

/-- Helper: a whole lifetime of cycles preserves the notification
invariant. -/
theorem runLifetime_inv (cfg : GlobalConfig) (eng : RegexOracle)
    (pings : List PingConfig) (cycles : List (Nat × (Nat → List EbayItem)))
    (st : CycleState) (h1 : st.notified.Nodup)
    (h2 : ∀ x ∈ st.notified, is_seen st.seen x = true) :
    ((runLifetime cfg eng pings cycles st).notified).Nodup ∧
      ∀ x ∈ (runLifetime cfg eng pings cycles st).notified,
        is_seen ((runLifetime cfg eng pings cycles st).seen) x = true := by
  induction cycles generalizing st with
  | nil => exact ⟨h1, h2⟩
  | cons cy t ih =>
    rcases foldl_processPing_inv cfg eng cy.1
      (buildCache cy.2 (dedupCategories pings)) pings st h1 h2 with ⟨g1, g2⟩
    exact ih _ g1 g2

/-- C3: every listing id of the de-duplicated listing set of every rule is seen
by the end of the cycle that processed it, whether or not it matched; and
over a whole process lifetime starting with an empty notification log, the
notification side effect fires at most once per listing id (the log has no
duplicates). -/
theorem C3_mark_seen_and_notify_once :
    (∀ (cfg : GlobalConfig) (eng : RegexOracle) (now : Nat)
        (fetch : Nat → List EbayItem) (pings : List PingConfig)
        (st : CycleState) (p : PingConfig) (it : EbayItem),
      p ∈ pings →
      it ∈ combineItems (buildCache fetch (dedupCategories pings))
        p.categories →
      is_seen (runCycle cfg eng now fetch pings st).seen it.item_id = true) ∧
      (∀ (cfg : GlobalConfig) (eng : RegexOracle) (pings : List PingConfig)
          (cycles : List (Nat × (Nat → List EbayItem)))
          (s0 : List SeenRecord),
        ((runLifetime cfg eng pings cycles
          { seen := s0, notified := [] }).notified).Nodup) := by
  constructor
  · intro cfg eng now fetch pings st p it hp hit
    exact foldl_processPing_marks cfg eng now
      (buildCache fetch (dedupCategories pings)) pings st p it hp hit
  · intro cfg eng pings cycles s0
    exact (runLifetime_inv cfg eng pings cycles { seen := s0, notified := [] }
      (by simp) (by simp)).1

/-- C3 witness: the mark-seen clause on a concrete one-rule, one-listing
cycle. -/
theorem C3_mark_seen_and_notify_once_witness :
    is_seen
        (runCycle ({} : GlobalConfig) (fun _ _ => none) 0
          (fun c => if c = 1 then
            [{ full_item_id := "v1-7".toList, item_id := 7,
               title := "Video Card".toList,
               buying_options := [BuyingOption.FIXED_PRICE] }] else [])
          [{ category_name := "gpus".toList, categories := [1],
             keywords := [{ keyword := "card".toList }] }]
          { seen := [], notified := [] }).seen
        7
      = true :=
  C3_mark_seen_and_notify_once.1 {} (fun _ _ => none) 0
    (fun c => if c = 1 then
      [{ full_item_id := "v1-7".toList, item_id := 7,
         title := "Video Card".toList,
         buying_options := [BuyingOption.FIXED_PRICE] }] else [])
    [{ category_name := "gpus".toList, categories := [1],
       keywords := [{ keyword := "card".toList }] }]
    { seen := [], notified := [] }
    { category_name := "gpus".toList, categories := [1],
      keywords := [{ keyword := "card".toList }] }
    { full_item_id := "v1-7".toList, item_id := 7,
      title := "Video Card".toList,
      buying_options := [BuyingOption.FIXED_PRICE] }
    (by decide) (by decide)

/-- C10: within one cycle, when a listing id appears in the de-duplicated
listing sets of an earlier rule and a later rule, the processing by the later rule of that listing is a skip: the fold state after the earlier rules
already has the id seen, so processing it again changes nothing (no
evaluation, no notification). -/
theorem C10_first_rule_wins :
    ∀ (cfg : GlobalConfig) (eng : RegexOracle) (now : Nat)
      (cache : List (Nat × List EbayItem)) (st : CycleState)
      (l1 : List PingConfig) (p1 p2 : PingConfig) (it1 it2 : EbayItem),
      p1 ∈ l1 →
      it1 ∈ combineItems cache p1.categories →
      it2 ∈ combineItems cache p2.categories →
      it2.item_id = it1.item_id →
      processItem cfg eng now p2
          (l1.foldl (processPing cfg eng now cache) st) it2
        = l1.foldl (processPing cfg eng now cache) st := by
  intro cfg eng now cache st l1 p1 p2 it1 it2 hp1 hit1 hit2 heq
  apply processItem_skip
  rw [heq]
  exact foldl_processPing_marks cfg eng now cache l1 st p1 it1 hp1 hit1

/-- C10 witness: two rules sharing a category and its single listing — after
the first rule has processed it, processing of the shared
listing is a no-op. -/
theorem C10_first_rule_wins_witness :
    processItem ({} : GlobalConfig) (fun _ _ => none) 0
        { category_name := "b".toList, categories := [1],
          keywords := [{ keyword := "card".toList }] }
        ([({ category_name := "a".toList, categories := [1],
             keywords := [{ keyword := "card".toList }] } : PingConfig)].foldl
          (processPing ({} : GlobalConfig) (fun _ _ => none) 0
            [(1, [{ full_item_id := "v1-7".toList, item_id := 7,
                    title := "Video Card".toList,
                    buying_options := [BuyingOption.FIXED_PRICE] }])])
          { seen := [], notified := [] })
        { full_item_id := "v1-7".toList, item_id := 7,
          title := "Video Card".toList,
          buying_options := [BuyingOption.FIXED_PRICE] }
      = [({ category_name := "a".toList, categories := [1],
            keywords := [{ keyword := "card".toList }] } : PingConfig)].foldl
          (processPing ({} : GlobalConfig) (fun _ _ => none) 0
            [(1, [{ full_item_id := "v1-7".toList, item_id := 7,
                    title := "Video Card".toList,
                    buying_options := [BuyingOption.FIXED_PRICE] }])])
          { seen := [], notified := [] } :=
  C10_first_rule_wins {} (fun _ _ => none) 0
    [(1, [{ full_item_id := "v1-7".toList, item_id := 7,
            title := "Video Card".toList,
            buying_options := [BuyingOption.FIXED_PRICE] }])]
    { seen := [], notified := [] }
    [{ category_name := "a".toList, categories := [1],
       keywords := [{ keyword := "card".toList }] }]
    { category_name := "a".toList, categories := [1],
      keywords := [{ keyword := "card".toList }] }
    { category_name := "b".toList, categories := [1],
      keywords := [{ keyword := "card".toList }] }
    { full_item_id := "v1-7".toList, item_id := 7,
      title := "Video Card".toList,
      buying_options := [BuyingOption.FIXED_PRICE] }
    { full_item_id := "v1-7".toList, item_id := 7,
      title := "Video Card".toList,
      buying_options := [BuyingOption.FIXED_PRICE] }
    (by decide) (by decide) (by decide) rfl

end EbayScraper

